import Mathlib

/-!
Verification of the opentainer streaming-bridge front end.

The definitions below are a shallow embedding of the TypeScript sources:
  - src/hooks/useBatchContainerStats.ts (stats derivation),
  - src/lib/api.ts (command surface, log/exec/pull session closures).
JavaScript numbers are modelled as rationals; JavaScript truthiness of the
logical-or operator on numbers (0 is falsy) and strings (the empty string is
falsy) is made explicit via the jsOr* helpers.  The backend command
get_batch_stats is implemented in the Rust layer, which is not part of the
front-end sources; it is modelled from the specification where noted.
-/

namespace Opentainer

/-! ### Stats data model (useBatchContainerStats.ts, interface StatsResponse) -/

/-- cpu_stats.cpu_usage: only total_usage is declared on the current sample. -/
structure CpuUsageCur where
  total_usage : ℚ
deriving DecidableEq

/-- precpu_stats.cpu_usage: total_usage plus the optional percpu_usage array. -/
structure CpuUsagePre where
  total_usage : ℚ
  percpu_usage : Option (List ℚ)
deriving DecidableEq

/-- cpu_stats of the current sample. -/
structure CpuStats where
  cpu_usage : CpuUsageCur
  system_cpu_usage : ℚ
  online_cpus : Option ℕ
deriving DecidableEq

/-- precpu_stats of the previous sample. -/
structure PrecpuStats where
  cpu_usage : CpuUsagePre
  system_cpu_usage : ℚ
deriving DecidableEq

/-- memory_stats.stats: the optional inner object carrying the cache figure. -/
structure MemoryStatsInner where
  cache : Option ℚ
deriving DecidableEq

/-- memory_stats of the current sample. -/
structure MemoryStats where
  usage : ℚ
  stats : Option MemoryStatsInner
deriving DecidableEq

/-- One per-container stats response, as declared in useBatchContainerStats.ts. -/
structure StatsResponse where
  cpu_stats : CpuStats
  precpu_stats : PrecpuStats
  memory_stats : MemoryStats
deriving DecidableEq

/-- JavaScript ( x || d ) on an optional number used as a count: undefined and
0 are falsy and yield the right operand. -/
def jsOrNat (x : Option ℕ) (d : ℕ) : ℕ :=
  match x with
  | some n => if n = 0 then d else n
  | none => d

/-- JavaScript ( x || d ) on an optional rational: undefined and 0 are falsy. -/
def jsOrRat (x : Option ℚ) (d : ℚ) : ℚ :=
  match x with
  | some c => if c = 0 then d else c
  | none => d

/-- cpuDelta = cpu_stats.cpu_usage.total_usage - precpu_stats.cpu_usage.total_usage. -/
def cpuDelta (s : StatsResponse) : ℚ :=
  s.cpu_stats.cpu_usage.total_usage - s.precpu_stats.cpu_usage.total_usage

/-- systemDelta = cpu_stats.system_cpu_usage - precpu_stats.system_cpu_usage. -/
def systemDelta (s : StatsResponse) : ℚ :=
  s.cpu_stats.system_cpu_usage - s.precpu_stats.system_cpu_usage

/-- numberCpus = cpu_stats.online_cpus || precpu_stats.cpu_usage.percpu_usage?.length || 1. -/
def numberCpus (s : StatsResponse) : ℕ :=
  jsOrNat s.cpu_stats.online_cpus
    (jsOrNat (s.precpu_stats.cpu_usage.percpu_usage.map List.length) 1)

/-- cpuPercent: 0.0 unless both deltas are strictly positive, in which case
(cpuDelta / systemDelta) * numberCpus * 100.0. -/
def cpuPercent (s : StatsResponse) : ℚ :=
  if systemDelta s > 0 ∧ cpuDelta s > 0 then
    cpuDelta s / systemDelta s * (numberCpus s : ℚ) * 100
  else 0

/-- memory_stats.stats?.cache || 0: the optional chain yields undefined when
either level is missing, and || maps undefined or 0 to 0. -/
def cacheBytes (s : StatsResponse) : ℚ :=
  jsOrRat (s.memory_stats.stats.bind fun inner => inner.cache) 0

/-- memUsage = memory_stats.usage - (memory_stats.stats?.cache || 0). -/
def memUsage (s : StatsResponse) : ℚ :=
  s.memory_stats.usage - cacheBytes s

/-- The worked example of the spec: cur.cpu_total=200, prev.cpu_total=100,
cur.system=1200, prev.system=1000, online_cpus=4. -/
def c1Sample : StatsResponse :=
  { cpu_stats := { cpu_usage := { total_usage := 200 }, system_cpu_usage := 1200,
                   online_cpus := some 4 }
    precpu_stats := { cpu_usage := { total_usage := 100, percpu_usage := none },
                      system_cpu_usage := 1000 }
    memory_stats := { usage := 0, stats := none } }

/-- A sample with a zero system delta (cur.system = prev.system). -/
def c1FlatSample : StatsResponse :=
  { cpu_stats := { cpu_usage := { total_usage := 200 }, system_cpu_usage := 1000,
                   online_cpus := some 4 }
    precpu_stats := { cpu_usage := { total_usage := 100, percpu_usage := none },
                      system_cpu_usage := 1000 }
    memory_stats := { usage := 0, stats := none } }

/-- C1: the reported CPU percentage equals
(cur.cpu_total - prev.cpu_total) / (cur.system_cpu - prev.system_cpu)
* online_cpus * 100 when both deltas are strictly positive, and is exactly 0
(the guarded branch, no division taken) when either delta is non-positive; the
worked example with totals 200/100, system counters 1200/1000 and 4 online
CPUs yields 200. -/
theorem cpuPercent_correct :
    (∀ s : StatsResponse, 0 < cpuDelta s → 0 < systemDelta s →
        cpuPercent s = cpuDelta s / systemDelta s * (numberCpus s : ℚ) * 100) ∧
    (∀ s : StatsResponse, cpuDelta s ≤ 0 ∨ systemDelta s ≤ 0 → cpuPercent s = 0) ∧
    cpuPercent c1Sample = 200 := by
  refine ⟨fun s hc hs => ?_, fun s h => ?_, ?_⟩
  · rw [cpuPercent, if_pos ⟨hs, hc⟩]
  · rw [cpuPercent, if_neg]
    rintro ⟨hs, hc⟩
    rcases h with h | h
    · exact absurd hc (not_lt.mpr h)
    · exact absurd hs (not_lt.mpr h)
  · norm_num [cpuPercent, cpuDelta, systemDelta, numberCpus, jsOrNat, c1Sample]

/-- C1 witness: the worked example evaluates to 200 percent, and the flat
sample (zero system delta) evaluates to 0 percent. -/
theorem cpuPercent_correct_witness :
    cpuPercent c1Sample = 200 ∧ cpuPercent c1FlatSample = 0 :=
  ⟨cpuPercent_correct.2.2,
   cpuPercent_correct.2.1 c1FlatSample
     (Or.inr (by norm_num [systemDelta, c1FlatSample]))⟩

/-- C6: when online_cpus is absent from the current sample, numberCpus falls
back to the length of precpu_stats.cpu_usage.percpu_usage when that array is
present and non-empty, and to 1 when the array is absent. -/
theorem numberCpus_fallback :
    (∀ (s : StatsResponse) (l : List ℚ), s.cpu_stats.online_cpus = none →
        s.precpu_stats.cpu_usage.percpu_usage = some l → l ≠ [] →
        numberCpus s = l.length) ∧
    (∀ s : StatsResponse, s.cpu_stats.online_cpus = none →
        s.precpu_stats.cpu_usage.percpu_usage = none → numberCpus s = 1) := by
  constructor
  · intro s l hoc hpc hne
    have hlen : l.length ≠ 0 := by simpa [List.length_eq_zero] using hne
    simp [numberCpus, jsOrNat, hoc, hpc, hlen]
  · intro s hoc hpc
    simp [numberCpus, jsOrNat, hoc, hpc]

/-- A sample with no online_cpus and a three-entry percpu_usage array. -/
def c6Sample : StatsResponse :=
  { cpu_stats := { cpu_usage := { total_usage := 0 }, system_cpu_usage := 0,
                   online_cpus := none }
    precpu_stats := { cpu_usage := { total_usage := 0,
                                     percpu_usage := some [10, 20, 30] },
                      system_cpu_usage := 0 }
    memory_stats := { usage := 0, stats := none } }

/-- A sample with neither online_cpus nor percpu_usage. -/
def c6BareSample : StatsResponse :=
  { cpu_stats := { cpu_usage := { total_usage := 0 }, system_cpu_usage := 0,
                   online_cpus := none }
    precpu_stats := { cpu_usage := { total_usage := 0, percpu_usage := none },
                      system_cpu_usage := 0 }
    memory_stats := { usage := 0, stats := none } }

/-- C6 witness: three percpu entries give a CPU count of 3; no information at
all gives a CPU count of 1. -/
theorem numberCpus_fallback_witness :
    numberCpus c6Sample = 3 ∧ numberCpus c6BareSample = 1 := by
  constructor
  · have h := numberCpus_fallback.1 c6Sample [10, 20, 30] rfl rfl (by decide)
    simpa using h
  · exact numberCpus_fallback.2 c6BareSample rfl rfl

/-- C7: the reported memory figure is usage minus cache bytes; when the cache
figure (or the whole inner stats object) is absent, the subtrahend is 0. -/
theorem memUsage_excludes_cache :
    (∀ (s : StatsResponse) (inner : MemoryStatsInner) (c : ℚ),
        s.memory_stats.stats = some inner → inner.cache = some c →
        memUsage s = s.memory_stats.usage - c) ∧
    (∀ s : StatsResponse, s.memory_stats.stats = none →
        memUsage s = s.memory_stats.usage - 0) ∧
    (∀ (s : StatsResponse) (inner : MemoryStatsInner),
        s.memory_stats.stats = some inner → inner.cache = none →
        memUsage s = s.memory_stats.usage - 0) := by
  refine ⟨fun s inner c hs hc => ?_, fun s hs => ?_, fun s inner hs hc => ?_⟩
  · rcases eq_or_ne c 0 with h0 | h0
    · simp [memUsage, cacheBytes, jsOrRat, hs, hc, h0]
    · simp [memUsage, cacheBytes, jsOrRat, hs, hc, h0]
  · simp [memUsage, cacheBytes, jsOrRat, hs]
  · simp [memUsage, cacheBytes, jsOrRat, hs, hc]

/-- A sample with usage 1000 and cache 200. -/
def c7Sample : StatsResponse :=
  { cpu_stats := { cpu_usage := { total_usage := 0 }, system_cpu_usage := 0,
                   online_cpus := none }
    precpu_stats := { cpu_usage := { total_usage := 0, percpu_usage := none },
                      system_cpu_usage := 0 }
    memory_stats := { usage := 1000, stats := some { cache := some 200 } } }

/-- C7 witness: usage 1000 with cache 200 reports 800; with no inner stats
object the full usage is reported. -/
theorem memUsage_excludes_cache_witness :
    memUsage c7Sample = 800 ∧ memUsage c6BareSample = 0 - 0 := by
  constructor
  · have h := memUsage_excludes_cache.1 c7Sample { cache := some 200 } 200 rfl rfl
    norm_num [c7Sample] at h
    exact h
  · exact memUsage_excludes_cache.2.1 c6BareSample rfl

/-! ### The command surface (src/lib/api.ts, interface AppApi) -/

/-- The members of the AppApi interface, in declaration order. -/
inductive ApiMember
  | listContainers
  | containerAction
  | startLogs
  | startExec
  | listImages
  | removeImage
  | pullImage
  | listVolumes
  | removeVolume
  | listNetworks
  | getContainerStats
  | getBatchStats
  | openExternal
  | getAppVersion
deriving DecidableEq

/-- The shape of an AppApi member's declared return type. -/
inductive ReturnShape
  | envelope       -- Promise of a success/data/error record
  | plainString    -- Promise of a bare string
  | cancelFunction -- a zero-argument teardown function, not a promise
  | execHandle     -- a record of write/resize/dispose functions
deriving DecidableEq

/-- The declared return shape of each AppApi member, read off the interface. -/
def returnShape : ApiMember → ReturnShape
  | .listContainers => .envelope
  | .containerAction => .envelope
  | .startLogs => .cancelFunction
  | .startExec => .execHandle
  | .listImages => .envelope
  | .removeImage => .envelope
  | .pullImage => .cancelFunction
  | .listVolumes => .envelope
  | .removeVolume => .envelope
  | .listNetworks => .envelope
  | .getContainerStats => .envelope
  | .getBatchStats => .envelope
  | .openExternal => .envelope
  | .getAppVersion => .plainString

/-- The one-shot command surface: the AppApi members that return a promise of
a value (the three session starters return live handles instead and are not
commands in the envelope sense). -/
def commandSurface : List ApiMember :=
  [.listContainers, .containerAction, .listImages, .removeImage, .listVolumes,
   .removeVolume, .listNetworks, .getContainerStats, .getBatchStats,
   .openExternal, .getAppVersion]

/-- C3 counterexample: getAppVersion is part of the command surface yet its
declared return type is a bare string, not the success/data/error envelope. -/
theorem getAppVersion_not_envelope :
    ApiMember.getAppVersion ∈ commandSurface ∧
    returnShape ApiMember.getAppVersion ≠ ReturnShape.envelope := by
  decide

/-- C3 (amended): every one-shot command except getAppVersion returns the
uniform success/data/error envelope; getAppVersion returns a plain string. -/
theorem envelope_uniform_except_version :
    (∀ m ∈ commandSurface, m ≠ ApiMember.getAppVersion →
        returnShape m = ReturnShape.envelope) ∧
    returnShape ApiMember.getAppVersion = ReturnShape.plainString := by
  decide

/-- C3 witness: listContainers is on the command surface, differs from
getAppVersion, and returns the envelope. -/
theorem envelope_uniform_except_version_witness :
    returnShape ApiMember.listContainers = ReturnShape.envelope :=
  envelope_uniform_except_version.1 ApiMember.listContainers (by decide) (by decide)

/-! ### Batch stats collection (backend command get_batch_stats) -/

/-- One per-container entry of a get_batch_stats response, as declared on
AppApi.getBatchStats: an id together with an independent success flag and
either data or an error string. -/
structure BatchEntry (α : Type) where
  id : String
  success : Bool
  data : Option α
  error : Option String
deriving DecidableEq

/-- Modelled from the spec: the backend implementation of the get_batch_stats
command is in the Rust command layer, which is not among the front-end
sources; the spec defines it as dispatching one independent stats request per
unique input identifier (duplicates tolerated and deduplicated) and recording
each per-identifier outcome as its own success or failure entry, failures
never suppressing sibling results.  The per-identifier request is abstracted
as a function from identifier to an ok-or-error outcome. -/
def get_batch_stats {α : Type} (query : String → Except String α)
    (ids : List String) : List (BatchEntry α) :=
  ids.dedup.map fun i =>
    match query i with
    | .ok d => ⟨i, true, some d, none⟩
    | .error e => ⟨i, false, none, some e⟩

/-- The entry built for identifier i carries id i. -/
theorem get_batch_stats_entry_id {α : Type} (query : String → Except String α)
    (i : String) :
    (match query i with
      | .ok d => (⟨i, true, some d, none⟩ : BatchEntry α)
      | .error e => ⟨i, false, none, some e⟩).id = i := by
  cases query i <;> rfl

/-- Entries of get_batch_stats whose id is not in the mapped list are absent:
the filter over identifiers different from all list elements is empty. -/
theorem get_batch_stats_filter_not_mem {α : Type}
    (query : String → Except String α) (l : List String) (i : String)
    (h : i ∉ l) :
    ((l.map fun j =>
        match query j with
        | .ok d => (⟨j, true, some d, none⟩ : BatchEntry α)
        | .error e => ⟨j, false, none, some e⟩).filter
      (fun e => e.id == i)) = [] := by
  induction l with
  | nil => rfl
  | cons j t ih =>
      have hji : j ≠ i := fun hj => h (hj ▸ List.mem_cons_self j t)
      have ht : i ∉ t := fun hm => h (List.mem_cons_of_mem j hm)
      have hid := get_batch_stats_entry_id query j
      simp only [List.map_cons, List.filter_cons]
      rw [ih ht]
      cases hq : query j <;>
        simp_all [List.filter_cons, beq_iff_eq]

/-- Over a duplicate-free identifier list, the mapped entries contain exactly
one entry for each member identifier. -/
theorem get_batch_stats_filter_mem {α : Type}
    (query : String → Except String α) (l : List String) (i : String)
    (hnd : l.Nodup) (hmem : i ∈ l) :
    ((l.map fun j =>
        match query j with
        | .ok d => (⟨j, true, some d, none⟩ : BatchEntry α)
        | .error e => ⟨j, false, none, some e⟩).filter
      (fun e => e.id == i)).length = 1 := by
  induction l with
  | nil => cases hmem
  | cons j t ih =>
      have hndt : t.Nodup := (List.nodup_cons.mp hnd).2
      rcases List.mem_cons.mp hmem with hji | hit
      · subst hji
        have hnt : i ∉ t := (List.nodup_cons.mp hnd).1
        simp only [List.map_cons, List.filter_cons]
        rw [get_batch_stats_filter_not_mem query t i hnt]
        cases hq : query i <;> simp [beq_iff_eq]
      · have hji : j ≠ i := fun hj => (List.nodup_cons.mp hnd).1 (hj ▸ hit)
        have := ih hndt hit
        simp only [List.map_cons, List.filter_cons]
        cases hq : query j <;>
          simp_all [beq_iff_eq, Ne.symm hji]

/-- C2: get_batch_stats returns exactly one entry per unique input
identifier (the returned ids are precisely the deduplicated input ids, and
each input id matches exactly one entry); the entry for an identifier depends
only on that identifier's own outcome, so a failure for one identifier never
alters the results for another; and an entry is marked successful exactly
when its own request succeeded. -/
theorem get_batch_stats_per_id {α : Type} (query : String → Except String α)
    (ids : List String) :
    ((get_batch_stats query ids).map (fun e => e.id) = ids.dedup) ∧
    (∀ i, i ∈ ids →
        ((get_batch_stats query ids).filter (fun e => e.id == i)).length = 1) ∧
    (∀ (q2 : String → Except String α) (i : String), query i = q2 i →
        (get_batch_stats query ids).filter (fun e => e.id == i) =
        (get_batch_stats q2 ids).filter (fun e => e.id == i)) ∧
    (∀ e, e ∈ get_batch_stats query ids →
        (e.success = true ↔ ∃ d, query e.id = Except.ok d)) := by
  refine ⟨?_, ?_, ?_, ?_⟩
  · rw [get_batch_stats, List.map_map]
    have : ∀ j ∈ ids.dedup,
        ((fun e => BatchEntry.id e) ∘ fun i =>
          match query i with
          | .ok d => (⟨i, true, some d, none⟩ : BatchEntry α)
          | .error e => ⟨i, false, none, some e⟩) j = j := by
      intro j _
      simpa using get_batch_stats_entry_id query j
    rw [List.map_congr_left this]
    simp
  · intro i hi
    exact get_batch_stats_filter_mem query ids.dedup i (List.nodup_dedup ids)
      (List.mem_dedup.mpr hi)
  · intro q2 i hq
    rw [get_batch_stats, get_batch_stats]
    induction ids.dedup with
    | nil => rfl
    | cons j t ih =>
        simp only [List.map_cons, List.filter_cons]
        rcases eq_or_ne j i with hji | hji
        · subst hji
          rw [hq, ih]
        · have h1 := get_batch_stats_entry_id query j
          have h2 := get_batch_stats_entry_id q2 j
          cases hq1 : query j <;> cases hq2 : q2 j <;>
            simp_all [beq_iff_eq, ih]
  · intro e he
    rw [get_batch_stats] at he
    rcases List.mem_map.mp he with ⟨j, _, hj⟩
    cases hq : query j <;> rw [hq] at hj <;> subst hj <;> simp [hq]

/-- The batch-example query: identifiers b and d are invalid, the rest
resolve to the numeric figure 42. -/
def c2Query : String → Except String ℕ := fun i =>
  if i = "b" ∨ i = "d" then .error "no such container" else .ok 42

/-- C2 witness: for five ids of which two are invalid, exactly one entry comes
back for id a; in total five entries come back, two failed and three
populated. -/
theorem get_batch_stats_per_id_witness :
    ((get_batch_stats c2Query ["a", "b", "c", "d", "e"]).filter
        (fun e => e.id == "a")).length = 1 ∧
    (get_batch_stats c2Query ["a", "b", "c", "d", "e"]).length = 5 ∧
    ((get_batch_stats c2Query ["a", "b", "c", "d", "e"]).filter
        (fun e => e.success)).length = 3 ∧
    ((get_batch_stats c2Query ["a", "b", "c", "d", "e"]).filter
        (fun e => !e.success)).length = 2 :=
  ⟨(get_batch_stats_per_id c2Query ["a", "b", "c", "d", "e"]).2.1 "a"
      (by decide),
   by decide, by decide, by decide⟩

/-! ### Session closures (src/lib/api.ts: startLogs, startExec, pullImage)

Each start call builds a closure over two mutable variables, active and
unlisten, runs an asynchronous setup (first the event-listener registration
resolves, then the start command is issued), and returns a teardown handle.
JavaScript is single-threaded, so the externally visible behaviour is a fold
of atomic steps over the interleaving of: the listener registration
resolving, channel events arriving, handle methods being called and, for
pulls, the backend call returning.  Each step yields the observable outputs
(callback deliveries, backend command invocations, listener unsubscription)
of that step. -/

/-- Backend commands a log session can issue. -/
inductive LogsCmd
  | startLogsCmd
  | stopLogsCmd
deriving DecidableEq

/-- External stimuli driving a log session closure. -/
inductive LogsEv
  | listenResolved
  | channelEvent (payload : String)
  | cancel
deriving DecidableEq

/-- Observable outputs of one log-session step. -/
inductive LogsOut
  | onData (payload : String)
  | invoked (c : LogsCmd)
  | unsubscribed
deriving DecidableEq

/-- The mutable closure state of startLogs: the active flag, whether the
listener registration has resolved (unlisten is set), and whether the
listener is currently attached. -/
structure LogsState where
  active : Bool
  listenerReady : Bool
  subscribed : Bool
deriving DecidableEq

/-- Closure state straight after startLogs returns: active, setup pending. -/
def logsInit : LogsState := ⟨true, false, false⟩

/-- One atomic step of the startLogs closure.  listenResolved runs the setup
continuation: record unlisten, then either issue start_logs (still active) or
immediately unsubscribe (cancelled during the await).  A channel event calls
onData only while the listener is attached and active.  The returned teardown
clears active, unsubscribes when unlisten is set, and issues stop_logs. -/
def logsStep (st : LogsState) : LogsEv → LogsState × List LogsOut
  | .listenResolved =>
      if st.listenerReady then (st, [])
      else if st.active then
        ({ st with listenerReady := true, subscribed := true },
          [.invoked .startLogsCmd])
      else
        ({ st with listenerReady := true, subscribed := false }, [.unsubscribed])
  | .channelEvent p =>
      (st, if st.subscribed && st.active then [.onData p] else [])
  | .cancel =>
      ({ st with active := false, subscribed := false },
        (if st.listenerReady then [LogsOut.unsubscribed] else []) ++
          [.invoked .stopLogsCmd])

/-- Folds a log session from a given state over a list of stimuli,
concatenating the outputs. -/
def logsRunFrom (st : LogsState) : List LogsEv → LogsState × List LogsOut
  | [] => (st, [])
  | ev :: evs =>
      let s1 := logsStep st ev
      let s2 := logsRunFrom s1.1 evs
      (s2.1, s1.2 ++ s2.2)

/-- Folds a log session from the initial closure state. -/
def logsRun (evs : List LogsEv) : LogsState × List LogsOut :=
  logsRunFrom logsInit evs

/-- Backend commands an exec session can issue. -/
inductive ExecCmd
  | startExecCmd
  | execInputCmd (data : String)
  | stopExecCmd
deriving DecidableEq

/-- External stimuli driving an exec session closure, including calls on the
returned write/resize/dispose handle. -/
inductive ExecEv
  | listenResolved
  | channelEvent (payload : String)
  | write (data : String)
  | resize (w h : ℕ)
  | dispose
deriving DecidableEq

/-- Observable outputs of one exec-session step. -/
inductive ExecOut
  | onData (payload : String)
  | invoked (c : ExecCmd)
  | unsubscribed
deriving DecidableEq

/-- The mutable closure state of startExec. -/
structure ExecState where
  active : Bool
  listenerReady : Bool
  subscribed : Bool
deriving DecidableEq

/-- Closure state straight after startExec returns. -/
def execInit : ExecState := ⟨true, false, false⟩

/-- One atomic step of the startExec closure.  write issues exec_input only
while active; resize is a declared no-op in the source ("Resize not
implemented yet"); dispose clears active, unsubscribes when unlisten is set,
and issues stop_exec. -/
def execStep (st : ExecState) : ExecEv → ExecState × List ExecOut
  | .listenResolved =>
      if st.listenerReady then (st, [])
      else if st.active then
        ({ st with listenerReady := true, subscribed := true },
          [.invoked .startExecCmd])
      else
        ({ st with listenerReady := true, subscribed := false }, [.unsubscribed])
  | .channelEvent p =>
      (st, if st.subscribed && st.active then [.onData p] else [])
  | .write d =>
      (st, if st.active then [.invoked (.execInputCmd d)] else [])
  | .resize _ _ => (st, [])
  | .dispose =>
      ({ st with active := false, subscribed := false },
        (if st.listenerReady then [ExecOut.unsubscribed] else []) ++
          [.invoked .stopExecCmd])

/-- Folds an exec session from a given state over a list of stimuli. -/
def execRunFrom (st : ExecState) : List ExecEv → ExecState × List ExecOut
  | [] => (st, [])
  | ev :: evs =>
      let s1 := execStep st ev
      let s2 := execRunFrom s1.1 evs
      (s2.1, s1.2 ++ s2.2)

/-- Folds an exec session from the initial closure state. -/
def execRun (evs : List ExecEv) : ExecState × List ExecOut :=
  execRunFrom execInit evs

/-- Backend commands a pull session can issue. -/
inductive PullCmd
  | pullImageCmd
  | stopPullCmd
deriving DecidableEq

/-- How the awaited pull_image backend call comes back: resolved with
success, resolved with failure (optional error string), or thrown. -/
inductive PullRes
  | resolvedOk
  | resolvedErr (error : Option String)
  | threw (msg : String)
deriving DecidableEq

/-- External stimuli driving a pull session closure. -/
inductive PullEv
  | listenResolved
  | channelEvent (payload : String)
  | cancel
  | invokeReturned (r : PullRes)
deriving DecidableEq

/-- Observable outputs of one pull-session step. -/
inductive PullOut
  | onProgress (payload : String)
  | onEnd
  | onError (msg : String)
  | invoked (c : PullCmd)
  | unsubscribed
deriving DecidableEq

/-- Progress of the awaited pull_image backend call. -/
inductive PullPhase
  | notIssued
  | awaiting
  | resolved
deriving DecidableEq

/-- The mutable closure state of pullImage, plus the phase of the awaited
backend call. -/
structure PullState where
  active : Bool
  listenerReady : Bool
  subscribed : Bool
  phase : PullPhase
deriving DecidableEq

/-- Closure state straight after pullImage returns. -/
def pullInit : PullState := ⟨true, false, false, .notIssued⟩

/-- JavaScript ( x || d ) on an optional string: undefined and the empty
string are falsy. -/
def jsOrStr (x : Option String) (d : String) : String :=
  match x with
  | some s => if s = "" then d else s
  | none => d

/-- One atomic step of the pullImage closure.  listenResolved runs the setup
continuation: record unlisten, then either issue pull_image and start
awaiting it, or unsubscribe when already cancelled.  When the awaited call
comes back, exactly one of onEnd (resolved success) or onError (resolved
failure, with res.error || "Unknown error", or thrown) runs, and the finally
block unsubscribes.  The returned teardown clears active, unsubscribes when
unlisten is set, and issues stop_pull. -/
def pullStep (st : PullState) : PullEv → PullState × List PullOut
  | .listenResolved =>
      if st.listenerReady then (st, [])
      else if st.active then
        ({ st with listenerReady := true, subscribed := true,
                   phase := .awaiting },
          [.invoked .pullImageCmd])
      else
        ({ st with listenerReady := true, subscribed := false }, [.unsubscribed])
  | .channelEvent p =>
      (st, if st.subscribed && st.active then [.onProgress p] else [])
  | .cancel =>
      ({ st with active := false, subscribed := false },
        (if st.listenerReady then [PullOut.unsubscribed] else []) ++
          [.invoked .stopPullCmd])
  | .invokeReturned r =>
      if st.phase = .awaiting then
        ({ st with phase := .resolved, subscribed := false },
          (match r with
            | .resolvedOk => [PullOut.onEnd]
            | .resolvedErr e => [.onError (jsOrStr e "Unknown error")]
            | .threw m => [.onError m]) ++ [.unsubscribed])
      else (st, [])

/-- Folds a pull session from a given state over a list of stimuli. -/
def pullRunFrom (st : PullState) : List PullEv → PullState × List PullOut
  | [] => (st, [])
  | ev :: evs =>
      let s1 := pullStep st ev
      let s2 := pullRunFrom s1.1 evs
      (s2.1, s1.2 ++ s2.2)

/-- Folds a pull session from the initial closure state. -/
def pullRun (evs : List PullEv) : PullState × List PullOut :=
  pullRunFrom pullInit evs

/-- Whether a pull output is a terminal outcome notification. -/
def isTerminalOut : PullOut → Bool
  | .onEnd => true
  | .onError _ => true
  | _ => false

/-- Whether a pull output is the success outcome. -/
def isEndOut : PullOut → Bool
  | .onEnd => true
  | _ => false

/-- Number of terminal outcome notifications in an output list. -/
def terminalCount (outs : List PullOut) : ℕ :=
  (outs.filter isTerminalOut).length

/-- Number of success outcome notifications in an output list. -/
def endCount (outs : List PullOut) : ℕ :=
  (outs.filter isEndOut).length

/-- 1 when the awaited pull_image call has come back, else 0. -/
def resolvedCount (st : PullState) : ℕ :=
  if st.phase = PullPhase.resolved then 1 else 0

/-- Reachability invariant of the pull closure: before the listener
registration resolves, the backend call cannot have been issued. -/
def pullPhaseInv (st : PullState) : Prop :=
  st.listenerReady = false → st.phase = PullPhase.notIssued

/-- The count of terminal notifications splits over appended outputs. -/
theorem terminalCount_append (a b : List PullOut) :
    terminalCount (a ++ b) = terminalCount a + terminalCount b := by
  simp [terminalCount, List.filter_append]

/-- One pull step emits a terminal notification exactly when the awaited
backend call transitions to resolved, and preserves the phase invariant. -/
theorem pullStep_terminal (st : PullState) (ev : PullEv)
    (h : pullPhaseInv st) :
    pullPhaseInv (pullStep st ev).1 ∧
    terminalCount (pullStep st ev).2 + resolvedCount st =
      resolvedCount (pullStep st ev).1 := by
  obtain ⟨a, lr, sub, ph⟩ := st
  cases ev with
  | listenResolved =>
      cases a <;> cases lr <;> cases ph <;>
        simp_all [pullStep, pullPhaseInv, resolvedCount, terminalCount,
          isTerminalOut]
  | channelEvent p =>
      simp_all [pullStep, pullPhaseInv, resolvedCount, terminalCount,
        isTerminalOut]
  | cancel =>
      cases lr <;>
        simp_all [pullStep, pullPhaseInv, resolvedCount, terminalCount,
          isTerminalOut]
  | invokeReturned r =>
      cases ph <;> cases r <;>
        simp_all [pullStep, pullPhaseInv, resolvedCount, terminalCount,
          isTerminalOut]

/-- Over a whole run, the number of terminal notifications equals the change
of the resolved indicator. -/
theorem pullRunFrom_terminal (evs : List PullEv) (st : PullState)
    (h : pullPhaseInv st) :
    pullPhaseInv (pullRunFrom st evs).1 ∧
    terminalCount (pullRunFrom st evs).2 + resolvedCount st =
      resolvedCount (pullRunFrom st evs).1 := by
  induction evs generalizing st with
  | nil => simpa [pullRunFrom, terminalCount] using h
  | cons ev evs ih =>
      obtain ⟨h1, e1⟩ := pullStep_terminal st ev h
      obtain ⟨h2, e2⟩ := ih (pullStep st ev).1 h1
      refine ⟨by simpa [pullRunFrom] using h2, ?_⟩
      simp only [pullRunFrom, terminalCount_append]
      omega

/-- C4: over every interleaving, a pull session delivers at most one terminal
outcome notification; and whenever the awaited pull_image backend call comes
back, exactly one terminal notification is delivered by that step, and it is
the success notification onEnd precisely when the call resolved with
success=true (otherwise onError runs). -/
theorem pull_terminal_exactly_once :
    (∀ evs : List PullEv, terminalCount (pullRun evs).2 ≤ 1) ∧
    (∀ (evs : List PullEv) (r : PullRes),
        (pullRun evs).1.phase = PullPhase.awaiting →
        terminalCount (pullStep (pullRun evs).1 (.invokeReturned r)).2 = 1 ∧
        (endCount (pullStep (pullRun evs).1 (.invokeReturned r)).2 = 1 ↔
          r = PullRes.resolvedOk)) := by
  constructor
  · intro evs
    have h := pullRunFrom_terminal evs pullInit (by intro _; rfl)
    have he : terminalCount (pullRun evs).2 = resolvedCount (pullRun evs).1 := by
      simpa [pullRun, resolvedCount, pullInit] using h.2
    rw [he, resolvedCount]
    split <;> omega
  · intro evs r hph
    cases r <;>
      simp [pullStep, hph, terminalCount, endCount, isTerminalOut, isEndOut]

/-- C4 witness: in the run where the listener resolves and then the backend
call returns success, exactly one terminal notification fires and it is
onEnd. -/
theorem pull_terminal_exactly_once_witness :
    terminalCount (pullStep (pullRun [PullEv.listenResolved]).1
        (.invokeReturned .resolvedOk)).2 = 1 ∧
    endCount (pullStep (pullRun [PullEv.listenResolved]).1
        (.invokeReturned .resolvedOk)).2 = 1 :=
  ⟨(pull_terminal_exactly_once.2 [PullEv.listenResolved] .resolvedOk
      (by decide)).1,
   (pull_terminal_exactly_once.2 [PullEv.listenResolved] .resolvedOk
      (by decide)).2.mpr rfl⟩

/-- Once the pull closure's active flag is cleared it stays cleared, and no
step delivers a progress payload to onProgress. -/
theorem pullStep_inactive (st : PullState) (ev : PullEv)
    (h : st.active = false) :
    (pullStep st ev).1.active = false ∧
    ∀ p, PullOut.onProgress p ∉ (pullStep st ev).2 := by
  obtain ⟨a, lr, sub, ph⟩ := st
  cases ev with
  | listenResolved => cases lr <;> simp_all [pullStep]
  | channelEvent q => simp_all [pullStep]
  | cancel => cases lr <;> simp_all [pullStep]
  | invokeReturned r => cases ph <;> cases r <;> simp_all [pullStep]

/-- Whole-run version: from an inactive state no progress is ever delivered. -/
theorem pullRunFrom_inactive (evs : List PullEv) (st : PullState)
    (h : st.active = false) :
    (pullRunFrom st evs).1.active = false ∧
    ∀ p, PullOut.onProgress p ∉ (pullRunFrom st evs).2 := by
  induction evs generalizing st with
  | nil => simp [pullRunFrom, h]
  | cons ev evs ih =>
      obtain ⟨h1, m1⟩ := pullStep_inactive st ev h
      obtain ⟨h2, m2⟩ := ih (pullStep st ev).1 h1
      refine ⟨by simpa [pullRunFrom] using h2, fun p => ?_⟩
      simp only [pullRunFrom, List.mem_append]
      rintro (hmem | hmem)
      · exact m1 p hmem
      · exact m2 p hmem

/-- C8: invoking the cancel function returned by pullImage issues the
stop_pull backend command, and from that point on no channel payload is ever
forwarded to onProgress, whatever stimuli follow. -/
theorem pull_cancel_stops_progress (evs1 evs2 : List PullEv) :
    PullOut.invoked PullCmd.stopPullCmd ∈
      (pullStep (pullRun evs1).1 .cancel).2 ∧
    ∀ p, PullOut.onProgress p ∉
      (pullRunFrom (pullStep (pullRun evs1).1 .cancel).1 evs2).2 := by
  constructor
  · rcases hr : (pullRun evs1).1.listenerReady <;> simp [pullStep, hr]
  · intro p
    have hact : (pullStep (pullRun evs1).1 .cancel).1.active = false := by
      simp [pullStep]
    exact (pullRunFrom_inactive evs2 _ hact).2 p

/-- C5 (known gap): the resize method of the startExec handle is a declared
no-op in the source ("Resize not implemented yet"): on every state and every
geometry, including the failing input resize(80, 24), it changes nothing and
issues no backend command, so no resize ever reaches the remote
pseudo-terminal. -/
theorem exec_resize_noop :
    execStep ⟨true, true, true⟩ (ExecEv.resize 80 24) = (⟨true, true, true⟩, []) ∧
    ∀ (st : ExecState) (w h : ℕ), execStep st (.resize w h) = (st, []) :=
  ⟨rfl, fun _ _ _ => rfl⟩

/-- Once the exec closure's active flag is cleared it stays cleared, and no
step delivers output to onData or issues the exec_input backend command. -/
theorem execStep_inactive (st : ExecState) (ev : ExecEv)
    (h : st.active = false) :
    (execStep st ev).1.active = false ∧
    (∀ p, ExecOut.onData p ∉ (execStep st ev).2) ∧
    (∀ d, ExecOut.invoked (ExecCmd.execInputCmd d) ∉ (execStep st ev).2) := by
  obtain ⟨a, lr, sub⟩ := st
  cases ev with
  | listenResolved => cases lr <;> simp_all [execStep]
  | channelEvent q => simp_all [execStep]
  | write d => simp_all [execStep]
  | resize w hh => simp_all [execStep]
  | dispose => cases lr <;> simp_all [execStep]

/-- Whole-run version: from an inactive exec state neither onData deliveries
nor exec_input invocations ever happen. -/
theorem execRunFrom_inactive (evs : List ExecEv) (st : ExecState)
    (h : st.active = false) :
    (execRunFrom st evs).1.active = false ∧
    (∀ p, ExecOut.onData p ∉ (execRunFrom st evs).2) ∧
    (∀ d, ExecOut.invoked (ExecCmd.execInputCmd d) ∉ (execRunFrom st evs).2) := by
  induction evs generalizing st with
  | nil => simp [execRunFrom, h]
  | cons ev evs ih =>
      obtain ⟨h1, m1, n1⟩ := execStep_inactive st ev h
      obtain ⟨h2, m2, n2⟩ := ih (execStep st ev).1 h1
      refine ⟨by simpa [execRunFrom] using h2, fun p => ?_, fun d => ?_⟩
      · simp only [execRunFrom, List.mem_append]
        rintro (hmem | hmem)
        · exact m1 p hmem
        · exact m2 p hmem
      · simp only [execRunFrom, List.mem_append]
        rintro (hmem | hmem)
        · exact n1 d hmem
        · exact n2 d hmem

/-- C9: after dispose() on a startExec handle, no subsequent stimulus — in
particular no write(data) call — ever issues the exec_input backend command,
no payload is ever delivered to onData again, and a write against an inactive
closure is a complete no-op. -/
theorem exec_dispose_silences (evs1 evs2 : List ExecEv) :
    (∀ d, ExecOut.invoked (ExecCmd.execInputCmd d) ∉
        (execRunFrom (execStep (execRun evs1).1 .dispose).1 evs2).2) ∧
    (∀ p, ExecOut.onData p ∉
        (execRunFrom (execStep (execRun evs1).1 .dispose).1 evs2).2) ∧
    (∀ (f s : Bool) (d : String),
        execStep ⟨false, f, s⟩ (.write d) = (⟨false, f, s⟩, [])) := by
  have hact : (execStep (execRun evs1).1 .dispose).1.active = false := by
    simp [execStep]
  obtain ⟨_, hm, hn⟩ := execRunFrom_inactive evs2 _ hact
  exact ⟨hn, hm, fun f s d => rfl⟩

/-! Cancellation before the asynchronous setup completes (C10). -/

/-- A log-session step other than the listener resolving never issues the
start_logs backend command. -/
theorem logsStep_no_start (st : LogsState) (ev : LogsEv)
    (h : ev ≠ LogsEv.listenResolved) :
    LogsOut.invoked LogsCmd.startLogsCmd ∉ (logsStep st ev).2 := by
  cases ev with
  | listenResolved => exact absurd rfl h
  | channelEvent p => rcases hs : st.subscribed && st.active <;>
      simp [logsStep, hs]
  | cancel => rcases hr : st.listenerReady <;> simp [logsStep, hr]

/-- While the listener registration has not resolved, no start_logs command
is issued. -/
theorem logsRunFrom_no_start (evs : List LogsEv) (st : LogsState)
    (h : LogsEv.listenResolved ∉ evs) :
    LogsOut.invoked LogsCmd.startLogsCmd ∉ (logsRunFrom st evs).2 := by
  induction evs generalizing st with
  | nil => simp [logsRunFrom]
  | cons ev evs ih =>
      simp only [logsRunFrom, List.mem_append]
      rintro (hmem | hmem)
      · exact logsStep_no_start st ev (fun he => h (he ▸ List.mem_cons_self ev evs)) hmem
      · exact ih (logsStep st ev).1 (fun hm => h (List.mem_cons_of_mem ev hm)) hmem

/-- A torn-down log session: active flag cleared and no live subscription. -/
def logsDown (st : LogsState) : Prop :=
  st.active = false ∧ st.subscribed = false

/-- Teardown is preserved by every step, and a torn-down session never issues
start_logs. -/
theorem logsStep_down (st : LogsState) (ev : LogsEv) (h : logsDown st) :
    logsDown (logsStep st ev).1 ∧
    LogsOut.invoked LogsCmd.startLogsCmd ∉ (logsStep st ev).2 := by
  obtain ⟨a, lr, sub⟩ := st
  obtain ⟨ha, hs⟩ := h
  cases ev with
  | listenResolved => cases lr <;> simp_all [logsStep, logsDown]
  | channelEvent p => simp_all [logsStep, logsDown]
  | cancel => cases lr <;> simp_all [logsStep, logsDown]

/-- Whole-run version of teardown preservation for log sessions. -/
theorem logsRunFrom_down (evs : List LogsEv) (st : LogsState)
    (h : logsDown st) :
    logsDown (logsRunFrom st evs).1 ∧
    LogsOut.invoked LogsCmd.startLogsCmd ∉ (logsRunFrom st evs).2 := by
  induction evs generalizing st with
  | nil => simpa [logsRunFrom] using h
  | cons ev evs ih =>
      obtain ⟨h1, m1⟩ := logsStep_down st ev h
      obtain ⟨h2, m2⟩ := ih (logsStep st ev).1 h1
      refine ⟨by simpa [logsRunFrom] using h2, ?_⟩
      simp only [logsRunFrom, List.mem_append]
      rintro (hmem | hmem)
      · exact m1 hmem
      · exact m2 hmem

/-- An exec-session step other than the listener resolving never issues the
start_exec backend command. -/
theorem execStep_no_start (st : ExecState) (ev : ExecEv)
    (h : ev ≠ ExecEv.listenResolved) :
    ExecOut.invoked ExecCmd.startExecCmd ∉ (execStep st ev).2 := by
  cases ev with
  | listenResolved => exact absurd rfl h
  | channelEvent p => rcases hs : st.subscribed && st.active <;>
      simp [execStep, hs]
  | write d => rcases ha : st.active <;> simp [execStep, ha]
  | resize w hh => simp [execStep]
  | dispose => rcases hr : st.listenerReady <;> simp [execStep, hr]

/-- While the listener registration has not resolved, no start_exec command
is issued. -/
theorem execRunFrom_no_start (evs : List ExecEv) (st : ExecState)
    (h : ExecEv.listenResolved ∉ evs) :
    ExecOut.invoked ExecCmd.startExecCmd ∉ (execRunFrom st evs).2 := by
  induction evs generalizing st with
  | nil => simp [execRunFrom]
  | cons ev evs ih =>
      simp only [execRunFrom, List.mem_append]
      rintro (hmem | hmem)
      · exact execStep_no_start st ev (fun he => h (he ▸ List.mem_cons_self ev evs)) hmem
      · exact ih (execStep st ev).1 (fun hm => h (List.mem_cons_of_mem ev hm)) hmem

/-- A torn-down exec session: active flag cleared and no live subscription. -/
def execDown (st : ExecState) : Prop :=
  st.active = false ∧ st.subscribed = false

/-- Teardown is preserved by every step, and a torn-down exec session never
issues start_exec. -/
theorem execStep_down (st : ExecState) (ev : ExecEv) (h : execDown st) :
    execDown (execStep st ev).1 ∧
    ExecOut.invoked ExecCmd.startExecCmd ∉ (execStep st ev).2 := by
  obtain ⟨a, lr, sub⟩ := st
  obtain ⟨ha, hs⟩ := h
  cases ev with
  | listenResolved => cases lr <;> simp_all [execStep, execDown]
  | channelEvent p => simp_all [execStep, execDown]
  | write d => simp_all [execStep, execDown]
  | resize w hh => simp_all [execStep, execDown]
  | dispose => cases lr <;> simp_all [execStep, execDown]

/-- Whole-run version of teardown preservation for exec sessions. -/
theorem execRunFrom_down (evs : List ExecEv) (st : ExecState)
    (h : execDown st) :
    execDown (execRunFrom st evs).1 ∧
    ExecOut.invoked ExecCmd.startExecCmd ∉ (execRunFrom st evs).2 := by
  induction evs generalizing st with
  | nil => simpa [execRunFrom] using h
  | cons ev evs ih =>
      obtain ⟨h1, m1⟩ := execStep_down st ev h
      obtain ⟨h2, m2⟩ := ih (execStep st ev).1 h1
      refine ⟨by simpa [execRunFrom] using h2, ?_⟩
      simp only [execRunFrom, List.mem_append]
      rintro (hmem | hmem)
      · exact m1 hmem
      · exact m2 hmem

/-- A pull-session step other than the listener resolving never issues the
pull_image backend command. -/
theorem pullStep_no_start (st : PullState) (ev : PullEv)
    (h : ev ≠ PullEv.listenResolved) :
    PullOut.invoked PullCmd.pullImageCmd ∉ (pullStep st ev).2 := by
  cases ev with
  | listenResolved => exact absurd rfl h
  | channelEvent p => rcases hs : st.subscribed && st.active <;>
      simp [pullStep, hs]
  | cancel => rcases hr : st.listenerReady <;> simp [pullStep, hr]
  | invokeReturned r =>
      rcases hp : decide (st.phase = PullPhase.awaiting) <;>
        cases r <;> simp_all [pullStep]

/-- While the listener registration has not resolved, no pull_image command
is issued. -/
theorem pullRunFrom_no_start (evs : List PullEv) (st : PullState)
    (h : PullEv.listenResolved ∉ evs) :
    PullOut.invoked PullCmd.pullImageCmd ∉ (pullRunFrom st evs).2 := by
  induction evs generalizing st with
  | nil => simp [pullRunFrom]
  | cons ev evs ih =>
      simp only [pullRunFrom, List.mem_append]
      rintro (hmem | hmem)
      · exact pullStep_no_start st ev (fun he => h (he ▸ List.mem_cons_self ev evs)) hmem
      · exact ih (pullStep st ev).1 (fun hm => h (List.mem_cons_of_mem ev hm)) hmem

/-- A torn-down pull session: active flag cleared and no live subscription. -/
def pullDown (st : PullState) : Prop :=
  st.active = false ∧ st.subscribed = false

/-- Teardown is preserved by every step, and a torn-down pull session never
issues pull_image. -/
theorem pullStep_down (st : PullState) (ev : PullEv) (h : pullDown st) :
    pullDown (pullStep st ev).1 ∧
    PullOut.invoked PullCmd.pullImageCmd ∉ (pullStep st ev).2 := by
  obtain ⟨a, lr, sub, ph⟩ := st
  obtain ⟨ha, hs⟩ := h
  cases ev with
  | listenResolved => cases lr <;> simp_all [pullStep, pullDown]
  | channelEvent p => simp_all [pullStep, pullDown]
  | cancel => cases lr <;> simp_all [pullStep, pullDown]
  | invokeReturned r => cases ph <;> cases r <;> simp_all [pullStep, pullDown]

/-- Whole-run version of teardown preservation for pull sessions. -/
theorem pullRunFrom_down (evs : List PullEv) (st : PullState)
    (h : pullDown st) :
    pullDown (pullRunFrom st evs).1 ∧
    PullOut.invoked PullCmd.pullImageCmd ∉ (pullRunFrom st evs).2 := by
  induction evs generalizing st with
  | nil => simpa [pullRunFrom] using h
  | cons ev evs ih =>
      obtain ⟨h1, m1⟩ := pullStep_down st ev h
      obtain ⟨h2, m2⟩ := ih (pullStep st ev).1 h1
      refine ⟨by simpa [pullRunFrom] using h2, ?_⟩
      simp only [pullRunFrom, List.mem_append]
      rintro (hmem | hmem)
      · exact m1 hmem
      · exact m2 hmem

/-- Splitting a log-session run over an appended stimulus list. -/
theorem logsRunFrom_append (st : LogsState) (xs ys : List LogsEv) :
    logsRunFrom st (xs ++ ys) =
      ((logsRunFrom (logsRunFrom st xs).1 ys).1,
        (logsRunFrom st xs).2 ++ (logsRunFrom (logsRunFrom st xs).1 ys).2) := by
  induction xs generalizing st with
  | nil => simp [logsRunFrom]
  | cons x xs ih => simp [logsRunFrom, ih]

/-- Splitting an exec-session run over an appended stimulus list. -/
theorem execRunFrom_append (st : ExecState) (xs ys : List ExecEv) :
    execRunFrom st (xs ++ ys) =
      ((execRunFrom (execRunFrom st xs).1 ys).1,
        (execRunFrom st xs).2 ++ (execRunFrom (execRunFrom st xs).1 ys).2) := by
  induction xs generalizing st with
  | nil => simp [execRunFrom]
  | cons x xs ih => simp [execRunFrom, ih]

/-- Splitting a pull-session run over an appended stimulus list. -/
theorem pullRunFrom_append (st : PullState) (xs ys : List PullEv) :
    pullRunFrom st (xs ++ ys) =
      ((pullRunFrom (pullRunFrom st xs).1 ys).1,
        (pullRunFrom st xs).2 ++ (pullRunFrom (pullRunFrom st xs).1 ys).2) := by
  induction xs generalizing st with
  | nil => simp [pullRunFrom]
  | cons x xs ih => simp [pullRunFrom, ih]

/-- C10: for startLogs, startExec and pullImage alike, if the cancel/dispose
function runs before the asynchronous setup has completed (the listener
registration has not yet resolved), then the backend start command —
start_logs, start_exec or pull_image respectively — is never issued at any
point of the run, and no live subscription remains afterwards whatever
stimuli follow (a listener resolving later is cleaned up in the same step). -/
theorem cancel_before_attach_leaves_nothing
    (l1 l2 : List LogsEv) (e1 e2 : List ExecEv) (p1 p2 : List PullEv)
    (hl : LogsEv.listenResolved ∉ l1)
    (he : ExecEv.listenResolved ∉ e1)
    (hp : PullEv.listenResolved ∉ p1) :
    (LogsOut.invoked LogsCmd.startLogsCmd ∉
        (logsRun (l1 ++ LogsEv.cancel :: l2)).2 ∧
      (logsRun (l1 ++ LogsEv.cancel :: l2)).1.subscribed = false) ∧
    (ExecOut.invoked ExecCmd.startExecCmd ∉
        (execRun (e1 ++ ExecEv.dispose :: e2)).2 ∧
      (execRun (e1 ++ ExecEv.dispose :: e2)).1.subscribed = false) ∧
    (PullOut.invoked PullCmd.pullImageCmd ∉
        (pullRun (p1 ++ PullEv.cancel :: p2)).2 ∧
      (pullRun (p1 ++ PullEv.cancel :: p2)).1.subscribed = false) := by
  refine ⟨?_, ?_, ?_⟩
  · rw [logsRun, logsRunFrom_append]
    set st1 := (logsRunFrom logsInit l1).1 with hst1
    have hdown : logsDown (logsStep st1 .cancel).1 := by
      constructor <;> simp [logsStep]
    have hseg2 := logsRunFrom_down l2 (logsStep st1 .cancel).1 hdown
    have hcancel : LogsOut.invoked LogsCmd.startLogsCmd ∉
        (logsStep st1 .cancel).2 :=
      logsStep_no_start st1 .cancel (by intro hc; cases hc)
    constructor
    · simp only [logsRunFrom, List.mem_append]
      rintro (hmem | hmem | hmem)
      · exact logsRunFrom_no_start l1 logsInit hl hmem
      · exact hcancel hmem
      · exact hseg2.2 hmem
    · simpa [logsRunFrom] using hseg2.1.2
  · rw [execRun, execRunFrom_append]
    set st1 := (execRunFrom execInit e1).1 with hst1
    have hdown : execDown (execStep st1 .dispose).1 := by
      constructor <;> simp [execStep]
    have hseg2 := execRunFrom_down e2 (execStep st1 .dispose).1 hdown
    have hcancel : ExecOut.invoked ExecCmd.startExecCmd ∉
        (execStep st1 .dispose).2 :=
      execStep_no_start st1 .dispose (by intro hc; cases hc)
    constructor
    · simp only [execRunFrom, List.mem_append]
      rintro (hmem | hmem | hmem)
      · exact execRunFrom_no_start e1 execInit he hmem
      · exact hcancel hmem
      · exact hseg2.2 hmem
    · simpa [execRunFrom] using hseg2.1.2
  · rw [pullRun, pullRunFrom_append]
    set st1 := (pullRunFrom pullInit p1).1 with hst1
    have hdown : pullDown (pullStep st1 .cancel).1 := by
      constructor <;> simp [pullStep]
    have hseg2 := pullRunFrom_down p2 (pullStep st1 .cancel).1 hdown
    have hcancel : PullOut.invoked PullCmd.pullImageCmd ∉
        (pullStep st1 .cancel).2 :=
      pullStep_no_start st1 .cancel (by intro hc; cases hc)
    constructor
    · simp only [pullRunFrom, List.mem_append]
      rintro (hmem | hmem | hmem)
      · exact pullRunFrom_no_start p1 pullInit hp hmem
      · exact hcancel hmem
      · exact hseg2.2 hmem
    · simpa [pullRunFrom] using hseg2.1.2

/-- C10 witness: cancelling first and letting the listener resolve afterwards
issues no start_logs and leaves the log session unsubscribed. -/
theorem cancel_before_attach_leaves_nothing_witness :
    LogsOut.invoked LogsCmd.startLogsCmd ∉
      (logsRun ([] ++ LogsEv.cancel :: [LogsEv.listenResolved])).2 ∧
    (logsRun ([] ++ LogsEv.cancel :: [LogsEv.listenResolved])).1.subscribed
      = false :=
  (cancel_before_attach_leaves_nothing
    [] [LogsEv.listenResolved] [] [ExecEv.listenResolved]
    [] [PullEv.listenResolved]
    (by decide) (by decide) (by decide)).1

end Opentainer
